import Mathlib

/-!
Shallow embedding of the DECALNIK Blender add-on (`decalnik.py`), a font-atlas
and text-decal generator, together with proofs about its layout arithmetic,
control flow and error behaviour.

Conventions of the embedding:
* Python float arithmetic is modelled exactly over `ℚ` (the layout code only
  adds, subtracts, multiplies and divides; the constant `0.8` is modelled as
  `4/5`).
* Python `str.upper()` is modelled by `Char.toUpper`, which agrees with it on
  ASCII (the add-on's default character set and inputs are ASCII).
* Python dicts keyed by characters are modelled as association lists where
  assigning to an existing key updates it in place and a new key is appended.
* The Blender (`bpy`) and PIL environments are modelled by an `Env` record of
  oracles: whether the .blend file is saved, the project directory, whether
  `image.save` raises `PermissionError`, whether the atlas image/material
  already exist, and the font's glyph-mask width for each character.
* Fallible code returns `Except PyErr …`, and scene/file mutations are logged
  as a list of `Effect`s.
-/

namespace Decalnik

/-- A UV rectangle as computed in `create_text_decal` (lines 147–155).  The
source stores it as the corner list
`[(u_min, v_min), (u_max, v_min), (u_max, v_max), (u_min, v_max)]`; we keep the
four distinct coordinates. -/
structure UVRect where
  uMin : ℚ
  uMax : ℚ
  vMin : ℚ
  vMax : ℚ
  deriving DecidableEq, Repr

/-- The UV rectangle for character index `i` in `create_text_decal`:
`col = i % CELL_COUNT[0]`, `row = i // CELL_COUNT[1]` (note: the source
divides by `CELL_COUNT[1]`, the row count), `u_min = col / CELL_COUNT[0]`,
`u_max = (col + 1) / CELL_COUNT[0]`, `v_min = 1 - (row + 1) / CELL_COUNT[1]`,
`v_max = 1 - row / CELL_COUNT[1]`. -/
def uvRect (cols rows i : ℕ) : UVRect :=
  let col : ℕ := i % cols
  let row : ℕ := i / rows
  { uMin := (col : ℚ) / (cols : ℚ)
    uMax := ((col : ℚ) + 1) / (cols : ℚ)
    vMin := 1 - ((row : ℚ) + 1) / (rows : ℚ)
    vMax := 1 - (row : ℚ) / (rows : ℚ) }

/-- `uv_dict[char] = rect`: Python-dict assignment on an association list —
an existing key is updated in place, a new key is appended. -/
def dict_insert (d : List (Char × UVRect)) (c : Char) (r : UVRect) :
    List (Char × UVRect) :=
  if c ∈ d.map Prod.fst then
    d.map (fun p => if p.1 = c then (p.1, r) else p)
  else
    d ++ [(c, r)]

/-- The loop `for i, char in enumerate(CHARACTERS): … uv_dict[char] = …` of
`create_text_decal`, carrying the loop index `i` and the dict built so far. -/
def uv_dict_go (cols rows : ℕ) : List Char → ℕ → List (Char × UVRect) →
    List (Char × UVRect)
  | [], _, d => d
  | c :: cs, i, d => uv_dict_go cols rows cs (i + 1) (dict_insert d c (uvRect cols rows i))

/-- The `uv_dict` of `create_text_decal` for a configured character list. -/
def uv_dict (cols rows : ℕ) (chars : List Char) : List (Char × UVRect) :=
  uv_dict_go cols rows chars 0 []

/-- The key list of `uv_dict`, i.e. what `char.upper() in uv_dict` tests. -/
def uvKeys (cols rows : ℕ) (chars : List Char) : List Char :=
  (uv_dict cols rows chars).map Prod.fst

/-- Key-set update: insertion appends the key only when it is new. -/
def insKey (ks : List Char) (c : Char) : List Char :=
  if c ∈ ks then ks else ks ++ [c]

theorem keys_dict_insert (d : List (Char × UVRect)) (c : Char) (r : UVRect) :
    (dict_insert d c r).map Prod.fst = insKey (d.map Prod.fst) c := by
  unfold dict_insert insKey
  split
  · rw [List.map_map]
    exact List.map_congr_left (fun p _ => by dsimp only [Function.comp]; split <;> rfl)
  · simp

theorem keys_uv_dict_go (cols rows : ℕ) :
    ∀ (cs : List Char) (i : ℕ) (d : List (Char × UVRect)),
      (uv_dict_go cols rows cs i d).map Prod.fst = cs.foldl insKey (d.map Prod.fst)
  | [], _, _ => rfl
  | c :: cs, i, d => by
    rw [uv_dict_go, keys_uv_dict_go cols rows cs (i + 1), keys_dict_insert, List.foldl_cons]

theorem length_foldl_insKey :
    ∀ (cs : List Char) (ks : List Char), cs.Nodup → (∀ c ∈ cs, c ∉ ks) →
      (cs.foldl insKey ks).length = ks.length + cs.length
  | [], ks, _, _ => by simp
  | c :: cs, ks, hnd, hdis => by
    have hc : c ∉ ks := hdis c (List.mem_cons_self c cs)
    rw [List.foldl_cons, insKey, if_neg hc,
      length_foldl_insKey cs (ks ++ [c]) (List.Nodup.of_cons hnd)]
    · simp [Nat.add_assoc, Nat.add_comm 1]
    · intro x hx
      simp only [List.mem_append, List.mem_singleton]
      rintro (h | rfl)
      · exact hdis x (List.mem_cons_of_mem c hx) h
      · exact (List.nodup_cons.mp hnd).1 hx

/-! ### Uppercasing

Python `str.upper()` on ASCII is `Char.toUpper`.  We need that uppercasing is
idempotent: the uppercase image of a basic latin letter is not lowercase. -/

theorem toNat_ofNat_of_interval (m : ℕ) (h1 : 65 ≤ m) (h2 : m ≤ 90) :
    (Char.ofNat m).toNat = m := by
  interval_cases m <;> decide

theorem toUpper_eq (c : Char) :
    c.toUpper = if 97 ≤ c.toNat ∧ c.toNat ≤ 122 then Char.ofNat (c.toNat - 32) else c :=
  rfl

theorem toUpper_idem (c : Char) : c.toUpper.toUpper = c.toUpper := by
  rw [toUpper_eq c]
  by_cases h : 97 ≤ c.toNat ∧ c.toNat ≤ 122
  · have hn : (Char.ofNat (c.toNat - 32)).toNat = c.toNat - 32 :=
      toNat_ofNat_of_interval _ (by omega) (by omega)
    have hcond : ¬(97 ≤ (Char.ofNat (c.toNat - 32)).toNat ∧
        (Char.ofNat (c.toNat - 32)).toNat ≤ 122) := by
      rw [hn]; omega
    rw [if_pos h, toUpper_eq, if_neg hcond]
  · rw [if_neg h, toUpper_eq, if_neg h]

/-! ### Line layout in `create_text_decal` (lines 186–216)

The per-line loop, parameterised by the key list of `uv_dict` and the width
table `char_widths` (a function of the character, as both branches of the
source's width computation are). -/

/-- `calculate_character_widths` (lines 63–73): for each configured character,
`widths[char] = font.getmask(char).size[0] / target_height * 0.8`, with the
font's glyph-mask width given by the oracle `mask` and `0.8` modelled exactly
as `4/5`.  The dict is modelled as an association list; duplicate configured
characters receive the same value, so lookup is unaffected. -/
def calculate_character_widths (mask : Char → ℕ) (characters : List Char)
    (target_height : ℕ) : List (Char × ℚ) :=
  characters.map (fun c => (c, (mask c : ℚ) / (target_height : ℚ) * (4 / 5)))

/-- The widths of the characters of a line that pass the
`if char.upper() in uv_dict` test, each looked up as
`char_widths[char.upper()]`. -/
def matchedWidths (keys : List Char) (cw : Char → ℚ) (line : List Char) : List ℚ :=
  (line.filter (fun c => decide (c.toUpper ∈ keys))).map (fun c => cw c.toUpper)

/-- `total_width = sum([char_widths[char.upper()] for char in line if char.upper() in uv_dict])`. -/
def total_width (keys : List Char) (cw : Char → ℚ) (line : List Char) : ℚ :=
  (matchedWidths keys cw line).sum

/-- A placed quad: `loc` is the final x-location of the plane's centre (the
plane is added at the line cursor and then shifted by `scale_factor * 0.5`),
`width` its x-scale `char_widths[char.upper()]`. -/
structure Quad where
  loc : ℚ
  width : ℚ
  deriving DecidableEq, Repr

/-- The quad-placing loop `for char in line: …` of `create_text_decal`:
a matched character adds a plane at the cursor, scales it to its width,
shifts it right by half its width, and advances the cursor by the width;
an unmatched character is skipped. -/
def placeQuads (keys : List Char) (cw : Char → ℚ) : ℚ → List Char → List Quad
  | _, [] => []
  | lc, c :: cs =>
    if c.toUpper ∈ keys then
      ⟨lc + cw c.toUpper * (1 / 2), cw c.toUpper⟩ ::
        placeQuads keys cw (lc + cw c.toUpper) cs
    else
      placeQuads keys cw lc cs

/-- One line of `create_text_decal`: the cursor starts at
`cursor_location.x - total_width / 2` and the quads are placed left to right. -/
def placeLine (keys : List Char) (cw : Char → ℚ) (cx : ℚ) (line : List Char) :
    List Quad :=
  placeQuads keys cw (cx - total_width keys cw line / 2) line

/-- Quads laid out left to right from a start cursor, one per width. -/
def quadsFrom : ℚ → List ℚ → List Quad
  | _, [] => []
  | lc, w :: ws => ⟨lc + w * (1 / 2), w⟩ :: quadsFrom (lc + w) ws

theorem placeQuads_eq_quadsFrom (keys : List Char) (cw : Char → ℚ) :
    ∀ (cs : List Char) (lc : ℚ),
      placeQuads keys cw lc cs = quadsFrom lc (matchedWidths keys cw cs)
  | [], _ => rfl
  | c :: cs, lc => by
    by_cases h : c.toUpper ∈ keys
    · have hm : matchedWidths keys cw (c :: cs) =
          cw c.toUpper :: matchedWidths keys cw cs := by
        simp [matchedWidths, List.filter_cons, h]
      rw [placeQuads, if_pos h, hm, quadsFrom,
        placeQuads_eq_quadsFrom keys cw cs (lc + cw c.toUpper)]
    · have hm : matchedWidths keys cw (c :: cs) = matchedWidths keys cw cs := by
        simp [matchedWidths, List.filter_cons, h]
      rw [placeQuads, if_neg h, hm, placeQuads_eq_quadsFrom keys cw cs lc]

theorem length_quadsFrom : ∀ (ws : List ℚ) (lc : ℚ),
    (quadsFrom lc ws).length = ws.length
  | [], _ => rfl
  | w :: ws, lc => by rw [quadsFrom, List.length_cons, List.length_cons,
      length_quadsFrom ws (lc + w)]

theorem sum_take_succ_getD : ∀ (ws : List ℚ) (k : ℕ), k < ws.length →
    (ws.take (k + 1)).sum = (ws.take k).sum + ws.getD k 0
  | [], _, h => absurd h (by simp)
  | w :: ws, 0, _ => by simp
  | w :: ws, k + 1, h => by
    have hk : k < ws.length := by simpa using h
    simp only [List.take_succ_cons, List.sum_cons, List.getD_cons_succ,
      sum_take_succ_getD ws k hk]
    ring

theorem getD_quadsFrom : ∀ (ws : List ℚ) (lc : ℚ) (k : ℕ), k < ws.length →
    (quadsFrom lc ws).getD k ⟨0, 0⟩ =
      ⟨lc + (ws.take k).sum + ws.getD k 0 * (1 / 2), ws.getD k 0⟩
  | [], _, _, h => absurd h (by simp)
  | w :: ws, lc, 0, _ => by
    simp [quadsFrom]
  | w :: ws, lc, k + 1, h => by
    have hk : k < ws.length := by simpa using h
    rw [quadsFrom, List.getD_cons_succ, List.getD_cons_succ,
      getD_quadsFrom ws (lc + w) k hk, List.take_succ_cons, List.sum_cons]
    congr 1
    ring

theorem matchedWidths_cons_pos (keys : List Char) (cw : Char → ℚ) (c : Char)
    (cs : List Char) (h : c.toUpper ∈ keys) :
    matchedWidths keys cw (c :: cs) = cw c.toUpper :: matchedWidths keys cw cs := by
  simp [matchedWidths, List.filter_cons, h]

theorem matchedWidths_cons_neg (keys : List Char) (cw : Char → ℚ) (c : Char)
    (cs : List Char) (h : c.toUpper ∉ keys) :
    matchedWidths keys cw (c :: cs) = matchedWidths keys cw cs := by
  simp [matchedWidths, List.filter_cons, h]

theorem quadsFrom_first (ws : List ℚ) (lc : ℚ) (h : 0 < ws.length) :
    ((quadsFrom lc ws).getD 0 ⟨0, 0⟩).loc -
      ((quadsFrom lc ws).getD 0 ⟨0, 0⟩).width / 2 = lc := by
  rw [getD_quadsFrom ws lc 0 h]
  dsimp
  ring

theorem quadsFrom_chain (ws : List ℚ) (lc : ℚ) (k : ℕ) (h : k + 1 < ws.length) :
    ((quadsFrom lc ws).getD k ⟨0, 0⟩).loc +
        ((quadsFrom lc ws).getD k ⟨0, 0⟩).width / 2 =
      ((quadsFrom lc ws).getD (k + 1) ⟨0, 0⟩).loc -
        ((quadsFrom lc ws).getD (k + 1) ⟨0, 0⟩).width / 2 := by
  have hk : k < ws.length := Nat.lt_of_succ_lt h
  rw [getD_quadsFrom ws lc k hk, getD_quadsFrom ws lc (k + 1) h]
  dsimp
  rw [sum_take_succ_getD ws k hk]
  ring

theorem quadsFrom_last (ws : List ℚ) (lc : ℚ) (h : 0 < ws.length) :
    ((quadsFrom lc ws).getD (ws.length - 1) ⟨0, 0⟩).loc +
        ((quadsFrom lc ws).getD (ws.length - 1) ⟨0, 0⟩).width / 2 =
      lc + ws.sum := by
  have hn : ws.length - 1 < ws.length := by omega
  rw [getD_quadsFrom ws lc (ws.length - 1) hn]
  dsimp
  have hsum : (ws.take (ws.length - 1)).sum + ws.getD (ws.length - 1) 0 = ws.sum := by
    have h2 := sum_take_succ_getD ws (ws.length - 1) hn
    have he : ws.length - 1 + 1 = ws.length := by omega
    rw [he, List.take_length] at h2
    exact h2.symm
  rw [← hsum]
  ring

theorem matchedWidths_map_toUpper (keys : List Char) (cw : Char → ℚ) :
    ∀ line : List Char,
      matchedWidths keys cw (line.map Char.toUpper) = matchedWidths keys cw line
  | [] => rfl
  | c :: line => by
    rw [List.map_cons]
    by_cases h : c.toUpper ∈ keys
    · have h2 : c.toUpper.toUpper ∈ keys := by rw [toUpper_idem]; exact h
      rw [matchedWidths_cons_pos keys cw _ _ h2, matchedWidths_cons_pos keys cw _ _ h,
        toUpper_idem, matchedWidths_map_toUpper keys cw line]
    · have h2 : c.toUpper.toUpper ∉ keys := by rw [toUpper_idem]; exact h
      rw [matchedWidths_cons_neg keys cw _ _ h2, matchedWidths_cons_neg keys cw _ _ h,
        matchedWidths_map_toUpper keys cw line]

theorem placeQuads_map_toUpper (keys : List Char) (cw : Char → ℚ) :
    ∀ (cs : List Char) (lc : ℚ),
      placeQuads keys cw lc (cs.map Char.toUpper) = placeQuads keys cw lc cs
  | [], _ => rfl
  | c :: cs, lc => by
    rw [List.map_cons, placeQuads, placeQuads]
    by_cases h : c.toUpper ∈ keys
    · have h2 : c.toUpper.toUpper ∈ keys := by rw [toUpper_idem]; exact h
      rw [if_pos h2, if_pos h, toUpper_idem,
        placeQuads_map_toUpper keys cw cs (lc + cw c.toUpper)]
    · have h2 : c.toUpper.toUpper ∉ keys := by rw [toUpper_idem]; exact h
      rw [if_neg h2, if_neg h, placeQuads_map_toUpper keys cw cs lc]

theorem total_width_map_toUpper (keys : List Char) (cw : Char → ℚ)
    (line : List Char) :
    total_width keys cw (line.map Char.toUpper) = total_width keys cw line := by
  unfold total_width
  rw [matchedWidths_map_toUpper]

theorem placeLine_map_toUpper (keys : List Char) (cw : Char → ℚ) (cx : ℚ)
    (line : List Char) :
    placeLine keys cw cx (line.map Char.toUpper) = placeLine keys cw cx line := by
  unfold placeLine
  rw [total_width_map_toUpper, placeQuads_map_toUpper]

theorem matchedWidths_skip (keys : List Char) (cw : Char → ℚ) (c : Char)
    (h : c.toUpper ∉ keys) :
    ∀ pre post : List Char,
      matchedWidths keys cw (pre ++ c :: post) = matchedWidths keys cw (pre ++ post)
  | [], post => by
    rw [List.nil_append, List.nil_append, matchedWidths_cons_neg keys cw _ _ h]
  | p :: pre, post => by
    rw [List.cons_append, List.cons_append]
    by_cases hp : p.toUpper ∈ keys
    · rw [matchedWidths_cons_pos keys cw _ _ hp, matchedWidths_cons_pos keys cw _ _ hp,
        matchedWidths_skip keys cw c h pre post]
    · rw [matchedWidths_cons_neg keys cw _ _ hp, matchedWidths_cons_neg keys cw _ _ hp,
        matchedWidths_skip keys cw c h pre post]

theorem placeQuads_skip (keys : List Char) (cw : Char → ℚ) (c : Char)
    (h : c.toUpper ∉ keys) :
    ∀ (pre post : List Char) (lc : ℚ),
      placeQuads keys cw lc (pre ++ c :: post) = placeQuads keys cw lc (pre ++ post)
  | [], post, lc => by
    rw [List.nil_append, List.nil_append, placeQuads, if_neg h]
  | p :: pre, post, lc => by
    rw [List.cons_append, List.cons_append, placeQuads, placeQuads]
    by_cases hp : p.toUpper ∈ keys
    · rw [if_pos hp, if_pos hp, placeQuads_skip keys cw c h pre post (lc + cw p.toUpper)]
    · rw [if_neg hp, if_neg hp, placeQuads_skip keys cw c h pre post lc]

/-- C2: for every line, `create_text_decal` starts the first quad's left edge
at `cursor.x - total_width / 2`, each quad of width `w` is centred at its start
position plus `w / 2` and abuts the next quad, and the last quad's right edge
is `cursor.x + total_width / 2`, so the placed quads span exactly
`[cursor.x - total_width / 2, cursor.x + total_width / 2]` and the line's
horizontal midpoint is the 3D cursor's x-coordinate. -/
theorem create_text_decal_line_centering (keys : List Char) (cw : Char → ℚ)
    (cx : ℚ) (line : List Char) :
    (0 < (placeLine keys cw cx line).length →
      ((placeLine keys cw cx line).getD 0 ⟨0, 0⟩).loc -
          ((placeLine keys cw cx line).getD 0 ⟨0, 0⟩).width / 2 =
        cx - total_width keys cw line / 2) ∧
    (∀ k, k + 1 < (placeLine keys cw cx line).length →
      ((placeLine keys cw cx line).getD k ⟨0, 0⟩).loc +
          ((placeLine keys cw cx line).getD k ⟨0, 0⟩).width / 2 =
        ((placeLine keys cw cx line).getD (k + 1) ⟨0, 0⟩).loc -
          ((placeLine keys cw cx line).getD (k + 1) ⟨0, 0⟩).width / 2) ∧
    (0 < (placeLine keys cw cx line).length →
      ((placeLine keys cw cx line).getD
            ((placeLine keys cw cx line).length - 1) ⟨0, 0⟩).loc +
          ((placeLine keys cw cx line).getD
            ((placeLine keys cw cx line).length - 1) ⟨0, 0⟩).width / 2 =
        cx + total_width keys cw line / 2) := by
  have hpl : placeLine keys cw cx line =
      quadsFrom (cx - total_width keys cw line / 2) (matchedWidths keys cw line) :=
    placeQuads_eq_quadsFrom keys cw line (cx - total_width keys cw line / 2)
  have hsum : total_width keys cw line = (matchedWidths keys cw line).sum := rfl
  refine ⟨?_, ?_, ?_⟩
  · intro h0
    rw [hpl] at h0 ⊢
    rw [length_quadsFrom] at h0
    exact quadsFrom_first _ _ h0
  · intro k hk
    rw [hpl] at hk ⊢
    rw [length_quadsFrom] at hk
    exact quadsFrom_chain _ _ k hk
  · intro h0
    rw [hpl] at h0 ⊢
    rw [length_quadsFrom] at h0 ⊢
    rw [quadsFrom_last _ _ h0, hsum]
    ring

/-- C3: when every character of a line (after uppercasing) is in the configured
character set, the `total_width` computed by `create_text_decal` equals the sum
over every character of the line of its measured width, as looked up in the
table produced by `calculate_character_widths`. -/
theorem create_text_decal_total_width (mask : Char → ℕ) (characters : List Char)
    (target_height : ℕ) (cols rows : ℕ) (line : List Char)
    (h : ∀ c ∈ line, c.toUpper ∈ uvKeys cols rows characters) :
    total_width (uvKeys cols rows characters)
        (fun c => ((calculate_character_widths mask characters target_height).lookup c).getD 0)
        line =
      (line.map (fun c =>
        ((calculate_character_widths mask characters target_height).lookup c.toUpper).getD 0)).sum := by
  unfold total_width matchedWidths
  rw [List.filter_eq_self.mpr]
  intro c hc
  exact decide_eq_true (h c hc)

/-- C9: character-to-glyph matching in `create_text_decal` is
case-insensitive — the quad layout of a line equals that of its uppercased
line — and a character whose uppercase form is not a key of `uv_dict` is
silently skipped: it produces no quad and contributes nothing to the line's
total width. -/
theorem create_text_decal_upper_and_skip (keys : List Char) (cw : Char → ℚ)
    (cx : ℚ) (line pre post : List Char) (c : Char) :
    (placeLine keys cw cx (line.map Char.toUpper) = placeLine keys cw cx line) ∧
    (c.toUpper ∉ keys →
      total_width keys cw (pre ++ c :: post) = total_width keys cw (pre ++ post) ∧
      placeLine keys cw cx (pre ++ c :: post) = placeLine keys cw cx (pre ++ post)) := by
  refine ⟨placeLine_map_toUpper keys cw cx line, fun h => ⟨?_, ?_⟩⟩
  · unfold total_width
    rw [matchedWidths_skip keys cw c h pre post]
  · unfold placeLine total_width
    rw [matchedWidths_skip keys cw c h pre post, placeQuads_skip keys cw c h pre post]

/-- C2 witness: a concrete two-character line. -/
theorem create_text_decal_line_centering_witness :
    0 < (placeLine ['H', 'I'] (fun _ => (3 : ℚ)) 5 ['H', 'I']).length ∧
    ((placeLine ['H', 'I'] (fun _ => (3 : ℚ)) 5 ['H', 'I']).getD 0 ⟨0, 0⟩).loc -
        ((placeLine ['H', 'I'] (fun _ => (3 : ℚ)) 5 ['H', 'I']).getD 0 ⟨0, 0⟩).width / 2 =
      5 - total_width ['H', 'I'] (fun _ => (3 : ℚ)) ['H', 'I'] / 2 :=
  ⟨by decide,
    (create_text_decal_line_centering ['H', 'I'] (fun _ => (3 : ℚ)) 5 ['H', 'I']).1
      (by decide)⟩

/-- C3 witness: a concrete lowercase line over a concrete character set. -/
theorem create_text_decal_total_width_witness :
    (∀ c ∈ (['h', 'i'] : List Char), c.toUpper ∈ uvKeys 8 8 ['H', 'I']) ∧
    total_width (uvKeys 8 8 ['H', 'I'])
        (fun c => ((calculate_character_widths (fun _ => 76) ['H', 'I'] 95).lookup c).getD 0)
        ['h', 'i'] =
      ((['h', 'i'] : List Char).map (fun c =>
        ((calculate_character_widths (fun _ => 76) ['H', 'I'] 95).lookup c.toUpper).getD 0)).sum :=
  ⟨by decide,
    create_text_decal_total_width (fun _ => 76) ['H', 'I'] 95 8 8 ['h', 'i'] (by decide)⟩

/-- C9 witness: the character `(` is not in the key set `['A']`, and skipping
it leaves the total width of the line unchanged. -/
theorem create_text_decal_upper_and_skip_witness :
    ('('.toUpper ∉ (['A'] : List Char)) ∧
    total_width ['A'] (fun _ => (1 : ℚ)) ([] ++ '(' :: ['a']) =
      total_width ['A'] (fun _ => (1 : ℚ)) ([] ++ ['a']) :=
  ⟨by decide,
    ((create_text_decal_upper_and_skip ['A'] (fun _ => (1 : ℚ)) 0 ['a'] [] ['a'] '(').2
      (by decide)).1⟩

/-- C1 (failing evaluation): with a non-square cell grid the UV rectangles of
`create_text_decal` do not tile the unit square.  For `(cols, rows) = (2, 3)`
the distinct in-range indices `0` and `2` receive the same rectangle (an
overlap and hence also a gap), and for `(cols, rows) = (4, 2)` the in-range
index `7` receives a rectangle with `v_min = -1`, outside the unit square.
The cause is `row = i // CELL_COUNT[1]` in the source, although
`generate_font_atlas` lays the glyphs out by `y = i // cell_count[0]`. -/
theorem uvRect_not_tiling :
    uvRect 2 3 0 = uvRect 2 3 2 ∧ (0 : ℕ) < 2 * 3 ∧ (2 : ℕ) < 2 * 3 ∧
    (uvRect 4 2 7).vMin < 0 ∧ (7 : ℕ) < 4 * 2 := by
  refine ⟨?_, by norm_num, by norm_num, ?_, by norm_num⟩
  · show uvRect 2 3 0 = uvRect 2 3 2
    simp only [uvRect, UVRect.mk.injEq]
  · show (uvRect 4 2 7).vMin < 0
    simp only [uvRect]
    norm_num

/-- C6 counterexample: with the configured character string `"AA"` the
`uv_dict` of `create_text_decal` has a single entry, not two — the UV-rectangle
count equals the number of distinct characters, not the character count. -/
theorem uv_dict_count_counterexample :
    (uv_dict 8 8 ['A', 'A']).length ≠ (['A', 'A'] : List Char).length := by
  decide

/-- C6 (amended): when the configured character string has no duplicate
characters, `create_text_decal` produces exactly one UV rectangle per
character: the size of `uv_dict` equals the character count. -/
theorem uv_dict_count (cols rows : ℕ) (chars : List Char) (h : chars.Nodup) :
    (uv_dict cols rows chars).length = chars.length := by
  have hkeys : (uv_dict cols rows chars).map Prod.fst = chars.foldl insKey [] :=
    keys_uv_dict_go cols rows chars 0 []
  have h2 := length_foldl_insKey chars [] h (fun c _ => List.not_mem_nil c)
  calc (uv_dict cols rows chars).length
      = ((uv_dict cols rows chars).map Prod.fst).length := (List.length_map _ _).symm
    _ = (chars.foldl insKey []).length := by rw [hkeys]
    _ = chars.length := by rw [h2]; simp

/-- C6 witness: the add-on's default character set has no duplicates. -/
theorem uv_dict_count_witness :
    ("ABCDEFGHIJKLMNOPQRSTUVWXYZ0123456789&-+/.,!? ".toList.Nodup) ∧
    (uv_dict 8 8 "ABCDEFGHIJKLMNOPQRSTUVWXYZ0123456789&-+/.,!? ".toList).length =
      "ABCDEFGHIJKLMNOPQRSTUVWXYZ0123456789&-+/.,!? ".toList.length :=
  ⟨by decide, uv_dict_count 8 8 _ (by decide)⟩

/-! ### Glyph layout in `generate_font_atlas` (lines 90–102) -/

/-- The glyph-drawing loop of `generate_font_atlas`: character `i` is drawn at
`(x * cell_w + (cell_w - w) / 2, y * cell_h + (cell_h - target_height) / 2 - symbol_vertical_offset)`
where `x = i % cell_count[0]`, `y = i // cell_count[0]`, `w` is the glyph-mask
width of the character, and `target_height = FONT_SIZE`.  The loop index `i`
is carried explicitly. -/
def atlas_positions (mask : Char → ℕ) (cellW cellH : ℚ) (fontSize voff cols : ℕ) :
    List Char → ℕ → List (ℚ × ℚ)
  | [], _ => []
  | c :: cs, i =>
    ((((i % cols : ℕ) : ℚ) * cellW + (cellW - (mask c : ℚ)) / 2),
      (((i / cols : ℕ) : ℚ) * cellH + (cellH - (fontSize : ℚ)) / 2 - (voff : ℚ))) ::
      atlas_positions mask cellW cellH fontSize voff cols cs (i + 1)

/-- The draw positions of `generate_font_atlas` over the configured character
list, with `cell_size = (ATLAS_SIZE[0] / cell_count[0], ATLAS_SIZE[1] / cell_count[1])`. -/
def generate_font_atlas_positions (mask : Char → ℕ) (W H cols rows fontSize voff : ℕ)
    (chars : List Char) : List (ℚ × ℚ) :=
  atlas_positions mask ((W : ℚ) / (cols : ℚ)) ((H : ℚ) / (rows : ℚ))
    fontSize voff cols chars 0

theorem atlas_positions_getD (mask : Char → ℕ) (cellW cellH : ℚ)
    (fontSize voff cols : ℕ) :
    ∀ (cs : List Char) (j i : ℕ), i < cs.length →
      (atlas_positions mask cellW cellH fontSize voff cols cs j).getD i (0, 0) =
        ((((j + i) % cols : ℕ) : ℚ) * cellW + (cellW - (mask (cs.getD i 'A') : ℚ)) / 2,
          (((j + i) / cols : ℕ) : ℚ) * cellH + (cellH - (fontSize : ℚ)) / 2 - (voff : ℚ))
  | [], _, i, h => absurd h (by simp)
  | c :: cs, j, 0, _ => by simp [atlas_positions]
  | c :: cs, j, i + 1, h => by
    have hi : i < cs.length := by simpa using h
    rw [atlas_positions, List.getD_cons_succ, List.getD_cons_succ,
      atlas_positions_getD mask cellW cellH fontSize voff cols cs (j + 1) i hi]
    have hj : j + 1 + i = j + (i + 1) := by omega
    rw [hj]

/-- C5: `generate_font_atlas` draws the character at index `i` at the pixel
offset of grid cell `(i % cols, i / cols)`: its draw position is the x-cell
origin `(i % cols) * cell_width` plus horizontal centring of the glyph width,
and the y-cell origin `(i / cols) * cell_height` plus vertical centring of the
font size minus the configured vertical offset. -/
theorem generate_font_atlas_draw_position (mask : Char → ℕ)
    (W H cols rows fontSize voff : ℕ) (chars : List Char) (i : ℕ)
    (h : i < chars.length) :
    (generate_font_atlas_positions mask W H cols rows fontSize voff chars).getD i (0, 0) =
      (((i % cols : ℕ) : ℚ) * ((W : ℚ) / (cols : ℚ)) +
          (((W : ℚ) / (cols : ℚ)) - (mask (chars.getD i 'A') : ℚ)) / 2,
        ((i / cols : ℕ) : ℚ) * ((H : ℚ) / (rows : ℚ)) +
          (((H : ℚ) / (rows : ℚ)) - (fontSize : ℚ)) / 2 - (voff : ℚ)) := by
  have hgen := atlas_positions_getD mask ((W : ℚ) / (cols : ℚ)) ((H : ℚ) / (rows : ℚ))
    fontSize voff cols chars 0 i h
  simpa [generate_font_atlas_positions] using hgen

/-- C5 witness: the third character of a three-character set on the default
`1024x1024` atlas with an `8x8` grid. -/
theorem generate_font_atlas_draw_position_witness :
    (2 : ℕ) < (['A', 'B', 'C'] : List Char).length ∧
    (generate_font_atlas_positions (fun _ => 40) 1024 1024 8 8 95 15 ['A', 'B', 'C']).getD 2 (0, 0) =
      (((2 % 8 : ℕ) : ℚ) * ((1024 : ℚ) / (8 : ℚ)) +
          (((1024 : ℚ) / (8 : ℚ)) - ((40 : ℕ) : ℚ)) / 2,
        ((2 / 8 : ℕ) : ℚ) * ((1024 : ℚ) / (8 : ℚ)) +
          (((1024 : ℚ) / (8 : ℚ)) - ((95 : ℕ) : ℚ)) / 2 - ((15 : ℕ) : ℚ)) :=
  ⟨by decide,
    generate_font_atlas_draw_position (fun _ => 40) 1024 1024 8 8 95 15 ['A', 'B', 'C'] 2
      (by decide)⟩

/-! ### Control flow, effects and errors -/

/-- Python runtime exceptions the add-on can raise. -/
inductive PyErr where
  | nameError
  | indexError
  deriving DecidableEq, Repr

/-- Blender operator return values. -/
inductive OpResult where
  | FINISHED
  | CANCELLED
  deriving DecidableEq, Repr

/-- Externally visible actions on the Blender scene and the file system. -/
inductive Effect where
  | report (isError : Bool) (msg : String)
  | saveImage (dir file : List Char) (width height : ℕ)
  | loadImage (file : List Char)
  | reloadImage (file : List Char)
  | newMaterial (name : List Char)
  | addPlane
  | joinObjects
  deriving DecidableEq, Repr

/-- The add-on's configuration (`FontAtlasProperties`). -/
structure Props where
  atlas_size : List Char
  font_path : List Char
  font_size : ℕ
  symbol_vertical_offset : ℕ
  atlas_name : List Char
  text_content : List Char
  characters : List Char
  cell_count : ℕ × ℕ

/-- Oracles for the Blender and PIL environment: whether
`bpy.data.is_saved and bpy.data.filepath` is truthy, the project directory
`bpy.path.abspath("//")`, whether `image.save` raises `PermissionError`,
whether the atlas image name is already in `bpy.data.images`, whether the
atlas material already exists, and the font's glyph-mask width
`font.getmask(char).size[0]`. -/
structure Env where
  saved : Bool
  blend_dir : List Char
  save_raises : Bool
  image_exists : Bool
  material_exists : Bool
  mask : Char → ℕ

/-- `text.replace('\\n', '\n')`: left-to-right non-overlapping replacement of
the two-character sequence backslash-`n` by a newline character. -/
def replaceEscapes : List Char → List Char
  | [] => []
  | '\\' :: 'n' :: rest => '\n' :: replaceEscapes rest
  | c :: rest => c :: replaceEscapes rest

/-- Python `str.split(sep)` for a single-character separator: always returns
at least one (possibly empty) piece. -/
def splitOnChar (sep : Char) : List Char → List (List Char)
  | [] => [[]]
  | c :: rest =>
    if c = sep then [] :: splitOnChar sep rest
    else
      match splitOnChar sep rest with
      | [] => [[c]]
      | l :: ls => (c :: l) :: ls

/-- Python `int()` on a decimal-digit string (the atlas-size enum values are
all of this form). -/
def parseNat (s : List Char) : ℕ :=
  s.foldl (fun acc c => acc * 10 + (c.toNat - 48)) 0

/-- `ATLAS_SIZE = [int(dim) for dim in props.atlas_size.split('x')]`, whose
first two entries are the width and height of the created image. -/
def atlasDims (atlas_size : List Char) : ℕ × ℕ :=
  let ds := (splitOnChar 'x' atlas_size).map parseNat
  (ds.getD 0 0, ds.getD 1 0)

/-- The effects and outcome of `generate_font_atlas` (lines 76–120): the image
is rasterized in memory (its drawing positions are modelled by
`generate_font_atlas_positions`), saved as `ATLAS_NAME + ".png"` in the
directory of the .blend file, and loaded — or reloaded when already present —
into Blender.  When `image.save` raises `PermissionError`, the handler's
`self.report(…)` call hits the undefined name `self`, so `NameError`
propagates. -/
def generate_font_atlas_run (env : Env) (props : Props) :
    List Effect × Except PyErr Unit :=
  let dims := atlasDims props.atlas_size
  let file := props.atlas_name ++ ".png".toList
  if env.save_raises then
    ([], Except.error PyErr.nameError)
  else
    ([Effect.saveImage env.blend_dir file dims.1 dims.2] ++
        (if env.image_exists then [Effect.reloadImage file]
         else [Effect.loadImage file]),
      Except.ok ())

/-- The characters of the lines that pass the `char.upper() in uv_dict` test,
in order: `create_text_decal` adds one plane (one `created_objects` entry) per
such character, across all lines. -/
def collectPlanes (keys : List Char) : List (List Char) → List Char
  | [] => []
  | l :: ls => l.filter (fun c => decide (c.toUpper ∈ keys)) ++ collectPlanes keys ls

/-- The effects and outcome of `create_text_decal` (lines 123–247): the shared
material is created when missing, the text (after `'\\n'` replacement) is
split into lines, one plane is added per matched character (its geometry is
modelled by `placeLine`), and the planes are joined — where
`created_objects[0]` raises `IndexError` when no character matched. -/
def create_text_decal_run (env : Env) (props : Props) (text : List Char) :
    List Effect × Except PyErr Unit :=
  let keys := uvKeys props.cell_count.1 props.cell_count.2 props.characters
  let matEff := if env.material_exists then [] else [Effect.newMaterial props.atlas_name]
  let lines := splitOnChar '\n' (replaceEscapes text)
  let planes := collectPlanes keys lines
  if planes.isEmpty then
    (matEff ++ planes.map (fun _ => Effect.addPlane), Except.error PyErr.indexError)
  else
    (matEff ++ planes.map (fun _ => Effect.addPlane) ++ [Effect.joinObjects],
      Except.ok ())

/-- `FONT_ATLAS_OT_Generate.execute` (lines 46–60): when the .blend file is
unsaved, an inline error is reported and the operator cancels; when the text
is empty, an inline error is reported and the operator cancels; otherwise
`generate_font_atlas` and then `create_text_decal` run, and any exception they
raise propagates out of the operator. -/
def execute (env : Env) (props : Props) : List Effect × Except PyErr OpResult :=
  if env.saved then
    if props.text_content = [] then
      ([Effect.report true "Please enter text content."],
        Except.ok OpResult.CANCELLED)
    else
      match generate_font_atlas_run env props with
      | (e1, Except.error err) => (e1, Except.error err)
      | (e1, Except.ok ()) =>
        match create_text_decal_run env props props.text_content with
        | (e2, Except.error err) => (e1 ++ e2, Except.error err)
        | (e2, Except.ok ()) => (e1 ++ e2, Except.ok OpResult.FINISHED)
  else
    ([Effect.report true "Please save the Blender file before proceeding."],
      Except.ok OpResult.CANCELLED)

/-- Inline error reports: `self.report` with ERROR severity on the operator. -/
def isErrorReport : Effect → Bool
  | Effect.report true _ => true
  | _ => false

/-- Effects that modify state (the scene or the file system), as opposed to
reports shown to the user. -/
def isStateChange : Effect → Bool
  | Effect.report _ _ => false
  | _ => true

/-- File writes. -/
def isSaveEffect : Effect → Bool
  | Effect.saveImage _ _ _ _ => true
  | _ => false

theorem execute_deep_not_cancelled (env : Env) (props : Props)
    (hs : env.saved = true) (ht : props.text_content ≠ []) :
    (execute env props).2 ≠ Except.ok OpResult.CANCELLED := by
  unfold execute
  rw [if_pos hs, if_neg ht]
  rcases hgen : generate_font_atlas_run env props with ⟨e1, r1⟩
  cases r1 with
  | error err => simp
  | ok u =>
    cases u
    rcases hcr : create_text_decal_run env props props.text_content with ⟨e2, r2⟩
    cases r2 with
    | error err => simp
    | ok u => cases u; simp

/-- Concrete environment: project saved, atlas save succeeds, nothing exists
yet, every glyph 40 pixels wide. -/
def env0 : Env :=
  { saved := true
    blend_dir := "/proj/".toList
    save_raises := false
    image_exists := false
    material_exists := false
    mask := fun _ => 40 }

/-- Concrete configuration with the character set `"AB"` and the text `"("`,
no character of which matches. -/
def props0 : Props :=
  { atlas_size := "1024x1024".toList
    font_path := "arial.ttf".toList
    font_size := 95
    symbol_vertical_offset := 15
    atlas_name := "font_atlas_1".toList
    text_content := "(".toList
    characters := "AB".toList
    cell_count := (8, 8) }

/-- The same environment with the project unsaved. -/
def envUnsaved : Env := { env0 with saved := false }

/-- C4 counterexample: with the project saved and the non-empty text `"("` —
no character of which is in the configured set `"AB"` — the operator neither
reports an inline error and cancels nor succeeds: it raises `IndexError`
(`created_objects[0]` on an empty list), so the two inline-error cases are not
the only user-visible failure modes. -/
theorem execute_raises_counterexample :
    env0.saved = true ∧ props0.text_content ≠ [] ∧
    (execute env0 props0).2 = Except.error PyErr.indexError :=
  ⟨rfl, by decide, rfl⟩

/-- C4 (amended): the generate operator reports an inline error and returns
CANCELLED exactly when the text input is missing/empty or the host project
file has not been saved; in every such failure case an inline error is
reported.  In the remaining cases no inline error is reported, but the
operator does not always succeed: it can propagate an uncaught exception
(e.g. `IndexError` when no character of the text is in the configured set, or
`NameError` from the broken `PermissionError` handler when saving the atlas
fails). -/
theorem execute_cancel_iff (env : Env) (props : Props) :
    ((execute env props).2 = Except.ok OpResult.CANCELLED ↔
      env.saved = false ∨ props.text_content = []) ∧
    ((execute env props).2 = Except.ok OpResult.CANCELLED →
      (execute env props).1.any isErrorReport = true) := by
  by_cases hs : env.saved = true
  · by_cases ht : props.text_content = []
    · refine ⟨?_, fun _ => ?_⟩
      · simp [execute, hs, ht]
      · simp [execute, hs, ht, isErrorReport]
    · refine ⟨?_, fun hc => ?_⟩
      · constructor
        · intro hc
          exact absurd hc (execute_deep_not_cancelled env props hs ht)
        · rintro (h | h)
          · rw [hs] at h; cases h
          · exact absurd h ht
      · exact absurd hc (execute_deep_not_cancelled env props hs ht)
  · have hs' : env.saved = false := by
      cases h : env.saved
      · rfl
      · exact absurd h hs
    refine ⟨?_, fun _ => ?_⟩
    · simp [execute, hs']
    · simp [execute, hs', isErrorReport]

/-- C4 witness: with the project unsaved the operator cancels and an inline
error is among the reported effects. -/
theorem execute_cancel_iff_witness :
    (execute envUnsaved props0).2 = Except.ok OpResult.CANCELLED ∧
    (execute envUnsaved props0).1.any isErrorReport = true :=
  ⟨(execute_cancel_iff envUnsaved props0).1.mpr (Or.inl rfl),
    (execute_cancel_iff envUnsaved props0).2
      ((execute_cancel_iff envUnsaved props0).1.mpr (Or.inl rfl))⟩

/-- C8: when the generate operator returns CANCELLED (empty text or unsaved
project file) no state is modified: every logged effect is an inline report —
no atlas image is saved, no image is loaded, no material is created, no plane
is added and nothing is joined. -/
theorem execute_cancel_atomic (env : Env) (props : Props)
    (h : (execute env props).2 = Except.ok OpResult.CANCELLED) :
    (execute env props).1.filter isStateChange = [] := by
  by_cases hs : env.saved = true
  · by_cases ht : props.text_content = []
    · simp [execute, hs, ht, isStateChange]
    · exact absurd h (execute_deep_not_cancelled env props hs ht)
  · have hs' : env.saved = false := by
      cases hb : env.saved
      · rfl
      · exact absurd hb hs
    simp [execute, hs', isStateChange]

/-- C8 witness: the unsaved-project cancellation leaves the effect log free of
state changes. -/
theorem execute_cancel_atomic_witness :
    (execute envUnsaved props0).2 = Except.ok OpResult.CANCELLED ∧
    (execute envUnsaved props0).1.filter isStateChange = [] :=
  ⟨rfl, execute_cancel_atomic envUnsaved props0 rfl⟩

theorem collectPlanes_eq_nil (keys : List Char) :
    ∀ ls : List (List Char), (∀ l ∈ ls, ∀ c ∈ l, c.toUpper ∉ keys) →
      collectPlanes keys ls = []
  | [], _ => rfl
  | l :: ls, h => by
    rw [collectPlanes]
    have h1 : l.filter (fun c => decide (c.toUpper ∈ keys)) = [] := by
      apply List.filter_eq_nil_iff.mpr
      intro c hc
      simpa using h l (List.mem_cons_self l ls) c hc
    rw [h1, List.nil_append,
      collectPlanes_eq_nil keys ls (fun l' hl' => h l' (List.mem_cons_of_mem l hl'))]

/-- C10: when no character of the input text (after `'\\n'` replacement and
uppercasing) is a key of `uv_dict`, `create_text_decal` creates no planes and
the join step's `created_objects[0]` raises `IndexError`: the operation is not
total on arbitrary non-empty text. -/
theorem create_text_decal_no_match_raises (env : Env) (props : Props)
    (text : List Char)
    (h : ∀ l ∈ splitOnChar '\n' (replaceEscapes text), ∀ c ∈ l,
      c.toUpper ∉ uvKeys props.cell_count.1 props.cell_count.2 props.characters) :
    (create_text_decal_run env props text).2 = Except.error PyErr.indexError := by
  have hp : collectPlanes
      (uvKeys props.cell_count.1 props.cell_count.2 props.characters)
      (splitOnChar '\n' (replaceEscapes text)) = [] :=
    collectPlanes_eq_nil _ _ h
  simp [create_text_decal_run, hp]

/-- C10 witness: the text `"("` over the character set `"AB"`. -/
theorem create_text_decal_no_match_raises_witness :
    (∀ l ∈ splitOnChar '\n' (replaceEscapes "(".toList), ∀ c ∈ l,
      c.toUpper ∉ uvKeys props0.cell_count.1 props0.cell_count.2 props0.characters) ∧
    (create_text_decal_run env0 props0 "(".toList).2 = Except.error PyErr.indexError :=
  ⟨by decide, create_text_decal_no_match_raises env0 props0 "(".toList (by decide)⟩

/-- C7: on success `generate_font_atlas` performs exactly one file write — the
image named `ATLAS_NAME + ".png"` in the directory of the host .blend file,
with width and height parsed from the configured atlas size — and the three
selectable atlas sizes parse to 512, 1024 and 2048 pixels square. -/
theorem generate_font_atlas_output (env : Env) (props : Props)
    (h : (generate_font_atlas_run env props).2 = Except.ok ()) :
    (generate_font_atlas_run env props).1.filter isSaveEffect =
      [Effect.saveImage env.blend_dir (props.atlas_name ++ ".png".toList)
        (atlasDims props.atlas_size).1 (atlasDims props.atlas_size).2] ∧
    atlasDims "512x512".toList = (512, 512) ∧
    atlasDims "1024x1024".toList = (1024, 1024) ∧
    atlasDims "2048x2048".toList = (2048, 2048) := by
  refine ⟨?_, by decide, by decide, by decide⟩
  by_cases hr : env.save_raises
  · rw [generate_font_atlas_run] at h
    rw [if_pos hr] at h
    cases h
  · by_cases hi : env.image_exists
    · simp [generate_font_atlas_run, hr, hi, isSaveEffect]
    · simp [generate_font_atlas_run, hr, hi, isSaveEffect]

/-- C7 witness: the concrete saved-project environment writes exactly the file
`font_atlas_1.png` in the project directory at 1024 by 1024. -/
theorem generate_font_atlas_output_witness :
    (generate_font_atlas_run env0 props0).2 = Except.ok () ∧
    (generate_font_atlas_run env0 props0).1.filter isSaveEffect =
      [Effect.saveImage env0.blend_dir (props0.atlas_name ++ ".png".toList)
        (atlasDims props0.atlas_size).1 (atlasDims props0.atlas_size).2] :=
  ⟨rfl, (generate_font_atlas_output env0 props0 rfl).1⟩

end Decalnik
